import Mathlib

/-!
# Verification of the phone-verification bot (`src/bot.py`)

Shallow embedding of the Telegram phone-verification bot.  The bot's
handlers (`start`, `handle_verification`, `handle_contact`,
`help_command`, `status_command`) are modelled as pure functions from
the store state and the inbound message to an ordered list of *events*:
Firestore user-record updates, Firestore verification-record deletions,
and outbound replies, in the order the Python code performs them.

The Firestore collections `telegramVerifications` and `users` are
modelled as association lists from document id to document.  Firestore
string comparison (used by the range query in `handle_contact`,
`bot.py` line 125) is lexicographic on Unicode code points, modelled by
`lexLe` below.
-/

set_option autoImplicit false

namespace Bot

/-- The distinct outbound replies the bot can send (`reply_text` calls in
`src/bot.py`), one constructor per distinct message. -/
inductive Reply where
  /-- Welcome prompt with the share-contact keyboard (lines 48-52). -/
  | welcomePrompt
  /-- "Invalid verification code. Please try again from the website." (line 65). -/
  | invalidCode
  /-- "Invalid verification data. Please try again from the website." (line 73). -/
  | invalidData
  /-- "User not found. Please try again from the website." (line 81). -/
  | userNotFound
  /-- "Your phone number has been verified successfully!" (lines 94-97, 150-153). -/
  | success
  /-- "Please share your own contact information." (line 112). -/
  | shareOwnContact
  /-- "No phone number found in contact." (line 117). -/
  | noPhone
  /-- "No pending verification found for this phone number. ..." (lines 155-158). -/
  | noPending
  /-- The static /help text (lines 167-176). -/
  | helpText
  /-- "Your phone number is already verified!" (lines 196-199). -/
  | alreadyVerified
  /-- "Your phone number is not yet verified." (lines 201-204). -/
  | notYetVerified
  /-- "An error occurred. Please try again." (line 55). -/
  | errorGeneric
  /-- "An error occurred during verification. Please try again." (line 103). -/
  | errorVerification
  /-- "An error occurred while processing your contact. Please try again." (line 162). -/
  | errorContact
  /-- "An error occurred while checking your status. Please try again." (line 208). -/
  | errorStatus
deriving DecidableEq, Repr

/-- A document of the `telegramVerifications` collection: fields `userId`
and `phone`, each possibly absent (the code reads them with `.get`,
lines 69-70). -/
structure VerificationRecord where
  userId : Option String
  phone : Option String
deriving DecidableEq, Repr

/-- A document of the `users` collection, restricted to the three fields
this program reads or writes: `phoneVerified`, `telegramUsername`,
`telegramId` (lines 85-89, 186, 191). -/
structure UserRecord where
  phoneVerified : Bool
  telegramUsername : Option String
  telegramId : Option Int
deriving DecidableEq, Repr

/-- The Firestore state seen by the bot: the two collections, each an
association list from document id to document. -/
structure Store where
  telegramVerifications : List (String × VerificationRecord)
  users : List (String × UserRecord)
deriving DecidableEq, Repr

/-- The requesting Telegram user (`update.effective_user`): optional
username and numeric id. -/
structure Requester where
  username : Option String
  id : Int
deriving DecidableEq, Repr

/-- A shared contact payload (`update.message.contact`): optional embedded
Telegram user id and a phone-number string (lines 108-115). -/
structure Contact where
  user_id : Option Int
  phone_number : String
deriving DecidableEq, Repr

/-- One observable action of a handler, in program order: a Firestore
`users` update setting the three verification fields (lines 85-89 and
137-141), a Firestore `telegramVerifications` delete (lines 92 and 144),
or an outbound reply. -/
inductive Event where
  | setVerified (userId : String) (username : Option String) (telegramId : Int)
  | deleteVerification (code : String)
  | reply (r : Reply)
deriving DecidableEq, Repr

/-- Firestore `collection.document(key).get()`: the first document with
the given id, if any. -/
def getDoc {β : Type} (key : String) : List (String × β) → Option β
  | [] => none
  | kv :: rest => if kv.1 = key then some kv.2 else getDoc key rest

/-- Firestore `document(key).update(...)`: rewrite the document with the
given id, leaving the collection unchanged where the id does not occur. -/
def updateDoc {β : Type} (key : String) (f : β → β) : List (String × β) → List (String × β)
  | [] => []
  | kv :: rest =>
    if kv.1 = key then (kv.1, f kv.2) :: updateDoc key f rest
    else kv :: updateDoc key f rest

/-- Firestore `document(key).delete()`: remove the document with the
given id. -/
def deleteDoc {β : Type} (key : String) : List (String × β) → List (String × β)
  | [] => []
  | kv :: rest => if kv.1 = key then deleteDoc key rest else kv :: deleteDoc key rest

/-- The user-record update both handlers perform (lines 85-89 and
137-141): `phoneVerified = True`, `telegramUsername`/`telegramId` from
the requester.  The update names exactly the three modelled fields, so
the resulting document is fully determined. -/
def verifiedUser (username : Option String) (telegramId : Int) : UserRecord :=
  { phoneVerified := true, telegramUsername := username, telegramId := some telegramId }

/-- Apply one event to the store (replies do not touch the store). -/
def applyEvent (s : Store) : Event → Store
  | Event.setVerified uid un tid =>
    { s with users := updateDoc uid (fun _ => verifiedUser un tid) s.users }
  | Event.deleteVerification code =>
    { s with telegramVerifications := deleteDoc code s.telegramVerifications }
  | Event.reply _ => s

/-- The store state after a handler's event trace has been applied. -/
def runEvents (s : Store) (evts : List Event) : Store := evts.foldl applyEvent s

/-- The outbound replies of a trace, in order. -/
def replies : List Event → List Reply
  | [] => []
  | Event.reply r :: rest => r :: replies rest
  | Event.setVerified _ _ _ :: rest => replies rest
  | Event.deleteVerification _ :: rest => replies rest

/-- Python truthiness of the optional `userId` string read at lines 69
and 130: `if not user_id` fires on an absent field and on the empty
string. -/
def truthyUserId : Option String → Bool
  | none => false
  | some u => !(u = "")

/-- A record's `userId` passes the loop guard of lines 130-133 (truthy)
and resolves to an existing `users` document in the given store. -/
def userExistsFor (s : Store) : Option String → Bool
  | none => false
  | some uid => !(uid = "") && (getDoc uid s.users).isSome

/-- `handle_verification` (`src/bot.py` lines 57-99), the verify-by-code
workflow: look up the code, validate `userId`, check the user document
exists, then update the user, delete the verification record, and reply
success — in that order. -/
def handle_verification (s : Store) (req : Requester) (code : String) : List Event :=
  match getDoc code s.telegramVerifications with
  | none => [Event.reply Reply.invalidCode]
  | some vd =>
    match vd.userId with
    | none => [Event.reply Reply.invalidData]
    | some uid =>
      if uid = "" then [Event.reply Reply.invalidData]
      else
        match getDoc uid s.users with
        | none => [Event.reply Reply.userNotFound]
        | some _ =>
          [Event.setVerified uid req.username req.id,
           Event.deleteVerification code,
           Event.reply Reply.success]

/-- The self-contact check at line 111: `if user_id and user_id !=
update.effective_user.id`.  Python truthiness of an int: `None` and `0`
are falsy, so the check only fires on a nonzero embedded id that differs
from the requester's id. -/
def selfContactMismatch (c : Contact) (req : Requester) : Bool :=
  match c.user_id with
  | none => false
  | some uid => !(uid = 0) && !(uid = req.id)

/-- `phone_number.lstrip('+')` (line 121): remove every leading `+`. -/
def stripPlus (p : String) : String := String.mk (p.data.dropWhile (fun c => c == '+'))

/-- The Firestore range-scan sentinel `''` (line 125). -/
def highSentinel : Char := '\uf8ff'

/-- Lexicographic order on code-point sequences: the string order
Firestore uses for the range query at line 125. -/
def lexLe : List Char → List Char → Bool
  | [], _ => true
  | _ :: _, [] => false
  | a :: as, b :: bs =>
    if a.toNat < b.toNat then true
    else if b.toNat < a.toNat then false
    else lexLe as bs

/-- The `where('phone', '>=', p).where('phone', '<=', p + sentinel)`
filter of line 125, applied to one verification record: the `phone`
field must be present and fall in the closed range. -/
def phoneInRange (formatted : String) (vr : VerificationRecord) : Bool :=
  match vr.phone with
  | none => false
  | some q =>
    lexLe formatted.data q.data && lexLe q.data (formatted.data ++ [highSentinel])

/-- The query result of line 125: the verification records whose `phone`
field lies in the sentinel range. -/
def contactQuery (s : Store) (formatted : String) : List (String × VerificationRecord) :=
  s.telegramVerifications.filter (fun kv => phoneInRange formatted kv.2)

/-- The `for doc in query` loop of lines 128-147: skip records with a
falsy `userId`; for the others update the user, delete the verification
record, and set `found`.  Returns the event trace and the final value of
`found`. -/
def contactLoop (req : Requester) : List (String × VerificationRecord) → List Event × Bool
  | [] => ([], false)
  | (code, vr) :: rest =>
    match vr.userId with
    | none => contactLoop req rest
    | some uid =>
      if uid = "" then contactLoop req rest
      else
        (Event.setVerified uid req.username req.id ::
         Event.deleteVerification code :: (contactLoop req rest).1, true)

/-- `handle_contact` (`src/bot.py` lines 105-162), the verify-by-contact
workflow: self-contact check, phone presence check, normalization, range
query, per-record consume loop, then a single success / not-found reply. -/
def handle_contact (s : Store) (req : Requester) (c : Contact) : List Event :=
  if selfContactMismatch c req then [Event.reply Reply.shareOwnContact]
  else if c.phone_number = "" then [Event.reply Reply.noPhone]
  else
    (contactLoop req (contactQuery s (stripPlus c.phone_number))).1 ++
      [Event.reply
        (if (contactLoop req (contactQuery s (stripPlus c.phone_number))).2 then
          Reply.success
        else Reply.noPending)]

/-- The `users.where('telegramId', '==', user_id)` query of line 186:
user documents whose `telegramId` field is present and equal to the
requester's id. -/
def statusQuery (s : Store) (tid : Int) : List (String × UserRecord) :=
  s.users.filter (fun kv => kv.2.telegramId == some tid)

/-- The `for doc in query` loop of lines 189-193: scan until a document
with a truthy `phoneVerified` is found. -/
def statusLoop : List (String × UserRecord) → Bool
  | [] => false
  | (_, u) :: rest => if u.phoneVerified then true else statusLoop rest

/-- `status_command` (`src/bot.py` lines 180-208). -/
def status_command (s : Store) (req : Requester) : List Event :=
  [Event.reply
    (if statusLoop (statusQuery s req.id) then Reply.alreadyVerified
     else Reply.notYetVerified)]

/-- `start` (`src/bot.py` lines 34-55): with an argument, verify by code;
without, send the welcome prompt with the share-contact keyboard. -/
def start (s : Store) (req : Requester) (args : List String) : List Event :=
  match args with
  | [] => [Event.reply Reply.welcomePrompt]
  | code :: _ => handle_verification s req code

/-- `help_command` (`src/bot.py` lines 164-178): a static reply. -/
def help_command : List Event := [Event.reply Reply.helpText]

/-- The empty store. -/
def emptyStore : Store := ⟨[], []⟩

/-- Concrete store exercising verify-by-code: one pending verification
`ABC123` for user `u1`, who exists and is unverified. -/
def egStore1 : Store :=
  ⟨[("ABC123", ⟨some "u1", some "15551234567"⟩)],
   [("u1", ⟨false, none, none⟩)]⟩

/-- Concrete requester. -/
def egReq : Requester := ⟨some "alice", 42⟩

/-- Concrete store exercising verify-by-contact: two pending
verifications for the same phone number, for two different users. -/
def egStore5 : Store :=
  ⟨[("c1", ⟨some "u1", some "15551234567"⟩),
    ("c2", ⟨some "u2", some "15551234567"⟩)],
   [("u1", ⟨false, none, none⟩),
    ("u2", ⟨false, none, none⟩)]⟩

/-- Concrete store exercising the range-scan boundary: one pending
verification whose phone field extends `"1"` with the code point
U+FFFF, which lies above the U+F8FF sentinel. -/
def egStore4 : Store :=
  ⟨[("c1", ⟨some "u1", some "1\uffff"⟩)], []⟩

/-- Concrete store exercising /status with two user records linked to
telegram id 5: the first unverified, the second verified. -/
def egStore7 : Store :=
  ⟨[], [("a", ⟨false, none, some 5⟩), ("b", ⟨true, none, some 5⟩)]⟩

/-- Concrete store exercising verify-by-contact with a matching record
whose `userId` field is absent. -/
def egStore10 : Store :=
  ⟨[("c1", ⟨none, some "15551234567"⟩)], []⟩

/-- A Python exception escaping a handler body (store or transport
failure). -/
inductive PyExn where
  | raised (msg : String)
deriving DecidableEq, Repr

/-- The five registered handlers (`src/bot.py` lines 220-223, plus the
code path reached through `/start <code>`). -/
inductive Handler where
  | start
  | verifyCode
  | contact
  | help
  | status
deriving DecidableEq, Repr

/-- What each handler's `except` block replies, from the source:
`start` line 55, `handle_verification` line 103, `handle_contact`
line 162, `status_command` line 208 each send a generic failure reply;
`help_command`'s `except` block (lines 177-178) only logs and sends
nothing. -/
def handlerExceptReply : Handler → Option Reply
  | Handler.start => some Reply.errorGeneric
  | Handler.verifyCode => some Reply.errorVerification
  | Handler.contact => some Reply.errorContact
  | Handler.help => none
  | Handler.status => some Reply.errorStatus

/-- The `try`/`except` boundary every handler body is wrapped in: a
normal body outcome is passed through; an exception is swallowed and
converted into the handler's except-block reply, if it has one.  The
result type has no exception component: the boundary never re-raises. -/
def runWithBoundary (h : Handler) (body : Except PyExn (List Event)) : List Event :=
  match body with
  | Except.ok evts => evts
  | Except.error _ => ((handlerExceptReply h).map Event.reply).toList

/-! ## Lemmas about the store primitives -/

theorem getDoc_mem {β : Type} {key : String} {l : List (String × β)} {v : β}
    (h : getDoc key l = some v) : (key, v) ∈ l := by
  induction l with
  | nil => simp [getDoc] at h
  | cons kv rest ih =>
    rw [getDoc] at h
    by_cases hk : kv.1 = key
    · obtain ⟨a, b⟩ := kv
      rw [if_pos hk] at h
      cases h
      cases hk
      exact List.mem_cons_self _ _
    · rw [if_neg hk] at h
      exact List.mem_cons_of_mem _ (ih h)

theorem getDoc_updateDoc {β : Type} (key k : String) (f : β → β) (l : List (String × β)) :
    getDoc key (updateDoc k f l) =
      if key = k then (getDoc key l).map f else getDoc key l := by
  induction l with
  | nil => by_cases h : key = k <;> simp [getDoc, updateDoc, h]
  | cons kv rest ih =>
    by_cases hk : kv.1 = k <;> by_cases hky : kv.1 = key
    · have hkey : key = k := hky.symm.trans hk
      subst hkey
      simp [updateDoc, getDoc, hk, hky, ih]
    · have hkk : ¬ key = k := fun h => hky (hk.trans h.symm)
      have hkk2 : ¬ k = key := fun h => hky (hk.trans h)
      simp [updateDoc, getDoc, hk, hky, ih, hkk, hkk2]
    · have hkk : ¬ key = k := fun h => hk (hky.trans h)
      have hkk2 : ¬ k = key := fun h => hk (h.symm ▸ hky)
      simp [updateDoc, getDoc, hk, hky, ih, hkk, hkk2]
    · simp [updateDoc, getDoc, hk, hky, ih]

theorem getDoc_deleteDoc {β : Type} (key k : String) (l : List (String × β)) :
    getDoc key (deleteDoc k l) = if key = k then none else getDoc key l := by
  induction l with
  | nil => by_cases h : key = k <;> simp [getDoc, deleteDoc, h]
  | cons kv rest ih =>
    by_cases hk : kv.1 = k <;> by_cases hky : kv.1 = key
    · have hkey : key = k := hky.symm.trans hk
      subst hkey
      simp [deleteDoc, getDoc, hk, hky, ih]
    · have hkk : ¬ key = k := fun h => hky (hk.trans h.symm)
      have hkk2 : ¬ k = key := fun h => hky (hk.trans h)
      simp [deleteDoc, getDoc, hk, hky, ih, hkk, hkk2]
    · have hkk : ¬ key = k := fun h => hk (hky.trans h)
      have hkk2 : ¬ k = key := fun h => hk (h.symm ▸ hky)
      simp [deleteDoc, getDoc, hk, hky, ih, hkk, hkk2]
    · simp [deleteDoc, getDoc, hk, hky, ih]

theorem mem_deleteDoc {β : Type} {kv : String × β} {k : String} {l : List (String × β)}
    (h : kv ∈ l) (hne : kv.1 ≠ k) : kv ∈ deleteDoc k l := by
  induction l with
  | nil => simp at h
  | cons hd rest ih =>
    rw [List.mem_cons] at h
    rw [deleteDoc]
    rcases h with rfl | h
    · rw [if_neg hne]
      exact List.mem_cons_self _ _
    · by_cases hk : hd.1 = k
      · rw [if_pos hk]
        exact ih h
      · rw [if_neg hk]
        exact List.mem_cons_of_mem _ (ih h)

/-- In a collection with no duplicate document ids, two members with the
same id are the same entry. -/
theorem nodup_key_eq {β : Type} {l : List (String × β)}
    (h : (l.map Prod.fst).Nodup) {a b : String × β}
    (ha : a ∈ l) (hb : b ∈ l) (hk : a.1 = b.1) : a = b := by
  induction l with
  | nil => simp at ha
  | cons hd rest ih =>
    rw [List.map_cons, List.nodup_cons] at h
    rw [List.mem_cons] at ha hb
    rcases ha with rfl | ha <;> rcases hb with rfl | hb
    · rfl
    · exfalso
      apply h.1
      rw [hk]
      exact List.mem_map_of_mem Prod.fst hb
    · exfalso
      apply h.1
      rw [← hk]
      exact List.mem_map_of_mem Prod.fst ha
    · exact ih h.2 ha hb

/-! ## Lemmas about event traces -/

theorem runEvents_nil (s : Store) : runEvents s [] = s := rfl

theorem runEvents_cons (s : Store) (e : Event) (tr : List Event) :
    runEvents s (e :: tr) = runEvents (applyEvent s e) tr := rfl

theorem runEvents_append (s : Store) (a b : List Event) :
    runEvents s (a ++ b) = runEvents (runEvents s a) b :=
  List.foldl_append _ _ _ _

theorem replies_append (a b : List Event) :
    replies (a ++ b) = replies a ++ replies b := by
  induction a with
  | nil => rfl
  | cons e rest ih => cases e <;> simp [replies, ih]

/-- No event ever inserts into `telegramVerifications`: an absent code
stays absent under any trace. -/
theorem runEvents_verif_none (tr : List Event) (s : Store) (code : String)
    (h : getDoc code s.telegramVerifications = none) :
    getDoc code (runEvents s tr).telegramVerifications = none := by
  induction tr generalizing s with
  | nil => exact h
  | cons e rest ih =>
    rw [runEvents_cons]
    apply ih
    cases e with
    | setVerified uid un tid => exact h
    | reply r => exact h
    | deleteVerification k =>
      show getDoc code (deleteDoc k s.telegramVerifications) = none
      rw [getDoc_deleteDoc]
      by_cases hk : code = k
      · rw [if_pos hk]
      · rw [if_neg hk]
        exact h

/-- A verification record whose id is never deleted by the trace stays in
the store. -/
theorem runEvents_verif_mem (tr : List Event) (s : Store) (kv : String × VerificationRecord)
    (h : kv ∈ s.telegramVerifications)
    (hdel : ∀ code, Event.deleteVerification code ∈ tr → code ≠ kv.1) :
    kv ∈ (runEvents s tr).telegramVerifications := by
  induction tr generalizing s with
  | nil => exact h
  | cons e rest ih =>
    rw [runEvents_cons]
    apply ih
    · cases e with
      | setVerified uid un tid => exact h
      | reply r => exact h
      | deleteVerification k =>
        exact mem_deleteDoc h (fun hk => hdel k (List.mem_cons_self _ _) hk.symm)
    · intro code hc
      exact hdel code (List.mem_cons_of_mem _ hc)

/-- No event deletes from `users`, and updates preserve presence: whether
a user id resolves is invariant under any trace. -/
theorem runEvents_users_isSome (tr : List Event) (s : Store) (uid : String) :
    (getDoc uid (runEvents s tr).users).isSome = (getDoc uid s.users).isSome := by
  induction tr generalizing s with
  | nil => rfl
  | cons e rest ih =>
    rw [runEvents_cons, ih]
    cases e with
    | setVerified k un tid =>
      show (getDoc uid (updateDoc k _ s.users)).isSome = _
      rw [getDoc_updateDoc]
      by_cases hk : uid = k
      · rw [if_pos hk]
        cases hgd : getDoc uid s.users <;> rfl
      · rw [if_neg hk]
    | deleteVerification k => rfl
    | reply r => rfl

/-- Once a user record holds the requester's verification data, any
further trace made only of `setVerified` events with the same requester
data, deletions, and replies leaves it in that state. -/
theorem runEvents_users_const (tr : List Event) (s : Store) (uid : String)
    (un : Option String) (ti : Int)
    (htr : ∀ e ∈ tr, (∃ u, e = Event.setVerified u un ti) ∨
      (∃ c, e = Event.deleteVerification c) ∨ (∃ r, e = Event.reply r))
    (h : getDoc uid s.users = some (verifiedUser un ti)) :
    getDoc uid (runEvents s tr).users = some (verifiedUser un ti) := by
  induction tr generalizing s with
  | nil => exact h
  | cons e rest ih =>
    rw [runEvents_cons]
    refine ih (applyEvent s e) (fun e2 he => htr e2 (List.mem_cons_of_mem _ he)) ?_
    rcases htr e (List.mem_cons_self _ _) with ⟨u, rfl⟩ | ⟨c, rfl⟩ | ⟨r, rfl⟩
    · show getDoc uid (updateDoc u _ s.users) = _
      rw [getDoc_updateDoc]
      by_cases hk : uid = u
      · rw [if_pos hk, h]
        rfl
      · rw [if_neg hk]
        exact h
    · exact h
    · exact h

/-! ## Lemmas about the lexicographic order used by the range query -/

theorem char_toNat_inj {a b : Char} (h : a.toNat = b.toNat) : a = b :=
  Char.eq_of_val_eq (UInt32.eq_of_val_eq (Fin.eq_of_val_eq h))

theorem lexLe_append_self (p r : List Char) : lexLe p (p ++ r) = true := by
  induction p with
  | nil => rfl
  | cons a as ih => simp [lexLe, Nat.lt_irrefl, ih]

theorem lexLe_append_left (p a b : List Char) :
    lexLe (p ++ a) (p ++ b) = lexLe a b := by
  induction p with
  | nil => rfl
  | cons c cs ih => simp [lexLe, Nat.lt_irrefl, ih]

/-- Any code-point sequence lying in the closed range from `p` to
`p ++ [c]` starts with `p`, and its remainder is at most `[c]`.  This is
the content of the Firestore sentinel trick at `bot.py` line 125. -/
theorem lexLe_range_split (p : List Char) :
    ∀ q : List Char, ∀ c : Char, lexLe p q = true → lexLe q (p ++ [c]) = true →
      ∃ r, q = p ++ r ∧ lexLe r [c] = true := by
  induction p with
  | nil =>
    intro q c _ h2
    exact ⟨q, rfl, h2⟩
  | cons a as ih =>
    intro q c h1 h2
    cases q with
    | nil => simp [lexLe] at h1
    | cons b bs =>
      rcases Nat.lt_trichotomy a.toNat b.toNat with hab | hab | hab
      · rw [List.cons_append] at h2
        simp [lexLe, hab, Nat.lt_asymm hab] at h2
      · have hab2 : a = b := char_toNat_inj hab
        subst hab2
        rw [lexLe, if_neg (Nat.lt_irrefl _), if_neg (Nat.lt_irrefl _)] at h1
        rw [List.cons_append, lexLe, if_neg (Nat.lt_irrefl _), if_neg (Nat.lt_irrefl _)] at h2
        obtain ⟨r, rfl, hr⟩ := ih bs c h1 h2
        exact ⟨r, rfl, hr⟩
      · simp [lexLe, hab, Nat.lt_asymm hab] at h1

/-! ## Lemmas about the contact-consumption loop -/

/-- Every event the loop of lines 128-147 emits is either a `setVerified`
with the requester's data or a verification-record deletion. -/
theorem contactLoop_events_shape (req : Requester)
    (docs : List (String × VerificationRecord)) :
    ∀ e ∈ (contactLoop req docs).1,
      (∃ u, e = Event.setVerified u req.username req.id) ∨
      (∃ c, e = Event.deleteVerification c) ∨ (∃ r, e = Event.reply r) := by
  induction docs with
  | nil => intro e he; simp [contactLoop] at he
  | cons hd rest ih =>
    obtain ⟨code, ouid, oph⟩ := hd
    intro e he
    cases ouid with
    | none =>
      simp only [contactLoop] at he
      exact ih e he
    | some uid =>
      simp only [contactLoop] at he
      by_cases hemp : uid = ""
      · rw [if_pos hemp] at he
        exact ih e he
      · rw [if_neg hemp] at he
        simp only [List.mem_cons] at he
        rcases he with he | he | he
        · exact Or.inl ⟨uid, he⟩
        · exact Or.inr (Or.inl ⟨code, he⟩)
        · exact ih e he

/-- The loop sends no replies of its own. -/
theorem replies_contactLoop (req : Requester)
    (docs : List (String × VerificationRecord)) :
    replies (contactLoop req docs).1 = [] := by
  induction docs with
  | nil => rfl
  | cons hd rest ih =>
    obtain ⟨code, ouid, oph⟩ := hd
    cases ouid with
    | none => simpa only [contactLoop] using ih
    | some uid =>
      simp only [contactLoop]
      by_cases hemp : uid = ""
      · rw [if_pos hemp]
        exact ih
      · rw [if_neg hemp]
        simp [replies, ih]

/-- The loop's `found` flag is set exactly when some queried record has a
truthy `userId` (lines 127, 132-133, 146). -/
theorem contactLoop_found (req : Requester)
    (docs : List (String × VerificationRecord)) :
    (contactLoop req docs).2 = true ↔
      ∃ kv ∈ docs, truthyUserId kv.2.userId = true := by
  induction docs with
  | nil => simp [contactLoop]
  | cons hd rest ih =>
    obtain ⟨code, ouid, oph⟩ := hd
    cases ouid with
    | none =>
      simp only [contactLoop]
      rw [ih]
      constructor
      · rintro ⟨kv, h1, h2⟩
        exact ⟨kv, List.mem_cons_of_mem _ h1, h2⟩
      · rintro ⟨kv, h1, h2⟩
        rw [List.mem_cons] at h1
        rcases h1 with rfl | h1
        · simp [truthyUserId] at h2
        · exact ⟨kv, h1, h2⟩
    | some uid =>
      simp only [contactLoop]
      by_cases hemp : uid = ""
      · rw [if_pos hemp, ih]
        constructor
        · rintro ⟨kv, h1, h2⟩
          exact ⟨kv, List.mem_cons_of_mem _ h1, h2⟩
        · rintro ⟨kv, h1, h2⟩
          rw [List.mem_cons] at h1
          rcases h1 with rfl | h1
          · simp [truthyUserId, hemp] at h2
          · exact ⟨kv, h1, h2⟩
      · rw [if_neg hemp]
        simp only [true_iff]
        exact ⟨(code, ⟨some uid, oph⟩), List.mem_cons_self _ _,
          by simp [truthyUserId, hemp]⟩

/-- Records with a falsy `userId` are skipped without effect: if every
queried record has a falsy `userId`, the loop does nothing and finds
nothing. -/
theorem contactLoop_all_falsy (req : Requester)
    (docs : List (String × VerificationRecord))
    (h : ∀ kv ∈ docs, truthyUserId kv.2.userId = false) :
    contactLoop req docs = ([], false) := by
  induction docs with
  | nil => rfl
  | cons hd rest ih =>
    obtain ⟨code, ouid, oph⟩ := hd
    have htail : ∀ kv ∈ rest, truthyUserId kv.2.userId = false :=
      fun kv2 h2 => h kv2 (List.mem_cons_of_mem _ h2)
    cases ouid with
    | none =>
      simp only [contactLoop]
      exact ih htail
    | some uid =>
      have hh := h (code, ⟨some uid, oph⟩) (List.mem_cons_self _ _)
      simp only [truthyUserId, Bool.not_eq_true'] at hh
      simp only [contactLoop]
      rw [if_pos (by simpa using hh)]
      exact ih htail

/-- Every deletion the loop emits names the id of a queried record with a
truthy `userId`. -/
theorem contactLoop_del_mem (req : Requester)
    (docs : List (String × VerificationRecord)) (code : String)
    (h : Event.deleteVerification code ∈ (contactLoop req docs).1) :
    ∃ kv ∈ docs, kv.1 = code ∧ truthyUserId kv.2.userId = true := by
  induction docs with
  | nil => simp [contactLoop] at h
  | cons hd rest ih =>
    obtain ⟨c0, ouid, oph⟩ := hd
    cases ouid with
    | none =>
      simp only [contactLoop] at h
      obtain ⟨kv2, h2, h3⟩ := ih h
      exact ⟨kv2, List.mem_cons_of_mem _ h2, h3⟩
    | some uid =>
      simp only [contactLoop] at h
      by_cases hemp : uid = ""
      · rw [if_pos hemp] at h
        obtain ⟨kv2, h2, h3⟩ := ih h
        exact ⟨kv2, List.mem_cons_of_mem _ h2, h3⟩
      · rw [if_neg hemp] at h
        simp only [List.mem_cons] at h
        rcases h with h | h | h
        · simp at h
        · injection h with h2
          exact ⟨(c0, ⟨some uid, oph⟩), List.mem_cons_self _ _, h2.symm,
            by simp [truthyUserId, hemp]⟩
        · obtain ⟨kv2, h2, h3⟩ := ih h
          exact ⟨kv2, List.mem_cons_of_mem _ h2, h3⟩

/-- Correctness of the consume loop: when every queried record has a
truthy `userId` resolving to an existing user, the loop verifies each
referenced user and deletes each queried record. -/
theorem contactLoop_correct (req : Requester) :
    ∀ (docs : List (String × VerificationRecord)) (s : Store),
      (∀ kv ∈ docs, userExistsFor s kv.2.userId = true) →
      ∀ kv ∈ docs,
        (∀ uid, kv.2.userId = some uid →
          getDoc uid (runEvents s (contactLoop req docs).1).users
            = some (verifiedUser req.username req.id)) ∧
        getDoc kv.1 (runEvents s (contactLoop req docs).1).telegramVerifications = none := by
  intro docs
  induction docs with
  | nil => intro s _ kv hkv; simp at hkv
  | cons hd rest ih =>
    obtain ⟨code, ouid, oph⟩ := hd
    intro s hall kv hkv
    have hhd := hall (code, ⟨ouid, oph⟩) (List.mem_cons_self _ _)
    cases ouid with
    | none => simp [userExistsFor] at hhd
    | some uid0 =>
      simp only [userExistsFor, Bool.and_eq_true, Bool.not_eq_true'] at hhd
      obtain ⟨hemp, hsome⟩ := hhd
      have hemp2 : ¬ uid0 = "" := by simpa using hemp
      simp only [contactLoop]
      rw [if_neg hemp2]
      have hrun : ∀ tr : List Event,
          runEvents s (Event.setVerified uid0 req.username req.id ::
            Event.deleteVerification code :: tr)
            = runEvents (applyEvent (applyEvent s
                (Event.setVerified uid0 req.username req.id))
                (Event.deleteVerification code)) tr := by
        intro tr; rfl
      have hall2 : ∀ kv2 ∈ rest,
          userExistsFor (applyEvent (applyEvent s
            (Event.setVerified uid0 req.username req.id))
            (Event.deleteVerification code)) kv2.2.userId = true := by
        intro kv2 h2
        have hprev := hall kv2 (List.mem_cons_of_mem _ h2)
        cases hu2 : kv2.2.userId with
        | none => rw [hu2] at hprev; simp [userExistsFor] at hprev
        | some uid2 =>
          rw [hu2] at hprev
          simp only [userExistsFor, Bool.and_eq_true] at hprev ⊢
          refine ⟨hprev.1, ?_⟩
          have hiso := runEvents_users_isSome
            [Event.setVerified uid0 req.username req.id,
             Event.deleteVerification code] s uid2
          rw [runEvents_cons, runEvents_cons, runEvents_nil] at hiso
          rw [hiso]
          exact hprev.2
      have hshape : ∀ e ∈ (contactLoop req rest).1,
          (∃ u, e = Event.setVerified u req.username req.id) ∨
          (∃ c, e = Event.deleteVerification c) ∨ (∃ r, e = Event.reply r) :=
        contactLoop_events_shape req rest
      rw [List.mem_cons] at hkv
      rcases hkv with rfl | hkv
      · constructor
        · intro uid huid
          simp only at huid
          cases huid
          rw [hrun]
          apply runEvents_users_const _ _ _ _ _ hshape
          show getDoc uid0 (updateDoc uid0
            (fun _ => verifiedUser req.username req.id) s.users)
            = some (verifiedUser req.username req.id)
          rw [getDoc_updateDoc, if_pos rfl]
          obtain ⟨u0, hu0⟩ := Option.isSome_iff_exists.mp hsome
          rw [hu0]
          rfl
        · rw [hrun]
          apply runEvents_verif_none
          show getDoc code (deleteDoc code s.telegramVerifications) = none
          rw [getDoc_deleteDoc, if_pos rfl]
      · rw [hrun]
        exact ih (applyEvent (applyEvent s
          (Event.setVerified uid0 req.username req.id))
          (Event.deleteVerification code)) hall2 kv hkv

/-! ## The claims -/

/-- C1: for every verify-by-code invocation where the verification record
for the submitted code exists with a present `userId` and the referenced
user record exists, the handler sets `phoneVerified = true`,
`telegramUsername` to the requester's username and `telegramId` to the
requester's numeric id on that user record, then deletes the verification
record, then sends the success reply — the event trace lists the user
update strictly before the verification delete, and the reply last.
The hypothesis `husers` records that user-document ids are non-empty
(Firestore document ids cannot be empty), which makes a present `userId`
that resolves to an existing user automatically truthy in Python. -/
theorem claim_C1 (s : Store) (req : Requester) (code uid : String)
    (vr : VerificationRecord) (u : UserRecord)
    (husers : ∀ kv ∈ s.users, ¬ kv.1 = "")
    (hv : getDoc code s.telegramVerifications = some vr)
    (huid : vr.userId = some uid)
    (hu : getDoc uid s.users = some u) :
    handle_verification s req code =
      [Event.setVerified uid req.username req.id,
       Event.deleteVerification code,
       Event.reply Reply.success]
    ∧ getDoc uid (runEvents s (handle_verification s req code)).users
        = some (verifiedUser req.username req.id)
    ∧ getDoc code (runEvents s (handle_verification s req code)).telegramVerifications
        = none := by
  have hemp : ¬ uid = "" := husers (uid, u) (getDoc_mem hu)
  have hhv : handle_verification s req code =
      [Event.setVerified uid req.username req.id,
       Event.deleteVerification code,
       Event.reply Reply.success] := by
    simp only [handle_verification, hv, huid, hu, if_neg hemp]
  refine ⟨hhv, ?_, ?_⟩
  · rw [hhv]
    show getDoc uid (updateDoc uid (fun _ => verifiedUser req.username req.id) s.users)
      = some (verifiedUser req.username req.id)
    rw [getDoc_updateDoc, if_pos rfl, hu]
    rfl
  · rw [hhv]
    show getDoc code (deleteDoc code s.telegramVerifications) = none
    rw [getDoc_deleteDoc, if_pos rfl]

/-- Witness for C1: the scenario of the spec, code `ABC123` referencing
existing user `u1`. -/
theorem claim_C1_witness :
    handle_verification egStore1 egReq "ABC123" =
      [Event.setVerified "u1" (some "alice") 42,
       Event.deleteVerification "ABC123",
       Event.reply Reply.success]
    ∧ getDoc "u1" (runEvents egStore1 (handle_verification egStore1 egReq "ABC123")).users
        = some (verifiedUser (some "alice") 42)
    ∧ getDoc "ABC123"
        (runEvents egStore1 (handle_verification egStore1 egReq "ABC123")).telegramVerifications
        = none :=
  claim_C1 egStore1 egReq "ABC123" "u1" ⟨some "u1", some "15551234567"⟩
    ⟨false, none, none⟩ (by decide) (by decide) rfl (by decide)

/-- C2: single use — whenever a verify-by-code run sends the success
reply, running verify-by-code again with the same code against the
resulting store replies "invalid code" and performs no mutation (its
trace is the bare reply), because the first run deleted the verification
record. -/
theorem claim_C2 (s : Store) (req req2 : Requester) (code : String)
    (hs : Event.reply Reply.success ∈ handle_verification s req code) :
    handle_verification (runEvents s (handle_verification s req code)) req2 code
      = [Event.reply Reply.invalidCode]
    ∧ getDoc code (runEvents s (handle_verification s req code)).telegramVerifications
      = none := by
  cases hv : getDoc code s.telegramVerifications with
  | none =>
    simp only [handle_verification, hv] at hs
    simp at hs
  | some vr =>
    cases huid : vr.userId with
    | none =>
      simp only [handle_verification, hv, huid] at hs
      simp at hs
    | some uid =>
      by_cases hemp : uid = ""
      · simp only [handle_verification, hv, huid, if_pos hemp] at hs
        simp at hs
      · cases hu : getDoc uid s.users with
        | none =>
          simp only [handle_verification, hv, huid, if_neg hemp, hu] at hs
          simp at hs
        | some u =>
          have hhv : handle_verification s req code =
              [Event.setVerified uid req.username req.id,
               Event.deleteVerification code,
               Event.reply Reply.success] := by
            simp only [handle_verification, hv, huid, if_neg hemp, hu]
          rw [hhv]
          have hnone : getDoc code
              (runEvents s [Event.setVerified uid req.username req.id,
                Event.deleteVerification code,
                Event.reply Reply.success]).telegramVerifications = none := by
            show getDoc code (deleteDoc code s.telegramVerifications) = none
            rw [getDoc_deleteDoc, if_pos rfl]
          refine ⟨?_, hnone⟩
          simp only [handle_verification, hnone]

/-- Witness for C2: redeeming `ABC123` a second time fails and mutates
nothing. -/
theorem claim_C2_witness :
    handle_verification (runEvents egStore1 (handle_verification egStore1 egReq "ABC123"))
        ⟨none, 7⟩ "ABC123"
      = [Event.reply Reply.invalidCode]
    ∧ getDoc "ABC123"
        (runEvents egStore1 (handle_verification egStore1 egReq "ABC123")).telegramVerifications
      = none :=
  claim_C2 egStore1 egReq ⟨none, 7⟩ "ABC123" (by decide)

/-- C3: not-found conditions leave the store unchanged.  A code with no
verification record makes verify-by-code reply "invalid code" with no
other event and an unchanged store; a contact (passing the self-contact
and phone-presence guards) whose normalized phone matches no stored
record makes verify-by-contact reply "no pending verification found"
with no other event and an unchanged store. -/
theorem claim_C3 (s : Store) (req : Requester) (code : String) (c : Contact)
    (hcode : getDoc code s.telegramVerifications = none)
    (hself : selfContactMismatch c req = false)
    (hphone : ¬ c.phone_number = "")
    (hquery : contactQuery s (stripPlus c.phone_number) = []) :
    (handle_verification s req code = [Event.reply Reply.invalidCode]
      ∧ runEvents s (handle_verification s req code) = s)
    ∧ (handle_contact s req c = [Event.reply Reply.noPending]
      ∧ runEvents s (handle_contact s req c) = s) := by
  have h1 : handle_verification s req code = [Event.reply Reply.invalidCode] := by
    simp only [handle_verification, hcode]
  have h2 : handle_contact s req c = [Event.reply Reply.noPending] := by
    simp only [handle_contact, hself, Bool.false_eq_true, if_false, if_neg hphone, hquery]
    rfl
  exact ⟨⟨h1, by rw [h1]; rfl⟩, h2, by rw [h2]; rfl⟩

/-- Witness for C3: an unknown code and an unmatched contact against the
empty store. -/
theorem claim_C3_witness :
    (handle_verification emptyStore ⟨none, 7⟩ "nope" = [Event.reply Reply.invalidCode]
      ∧ runEvents emptyStore (handle_verification emptyStore ⟨none, 7⟩ "nope") = emptyStore)
    ∧ (handle_contact emptyStore ⟨none, 7⟩ ⟨none, "+15551234567"⟩
        = [Event.reply Reply.noPending]
      ∧ runEvents emptyStore (handle_contact emptyStore ⟨none, 7⟩ ⟨none, "+15551234567"⟩)
        = emptyStore) :=
  claim_C3 emptyStore ⟨none, 7⟩ "nope" ⟨none, "+15551234567"⟩
    (by decide) (by decide) (by decide) (by decide)

/-- C4 fails as stated: the range scan is *not* exactly "has p as a
literal string prefix".  In `egStore4` the record `c1` has phone
`"1"` followed by U+FFFF — the normalized phone `"1"` is a literal
string prefix of it — yet the query from `"1"` selects nothing, because
U+FFFF lies above the U+F8FF sentinel bound. -/
theorem claim_C4_counterexample :
    ("c1", (⟨some "u1", some "1\uffff"⟩ : VerificationRecord))
        ∈ egStore4.telegramVerifications
    ∧ ("1\uffff" : String).data = ("1" : String).data ++ ['\uffff']
    ∧ contactQuery egStore4 "1" = [] := by
  refine ⟨by decide, by decide, by decide⟩

/-- C4 amended: for every normalized phone string p, the verify-by-contact
query selects exactly the verification records whose phone field is
present and has p as a literal string prefix *with the remainder after p
lexicographically at most the one-character string U+F8FF* — the closed
range from p to p followed by the high sentinel.  For phones made of
characters below U+F8FF (all real phone numbers) this coincides with
literal-prefix matching. -/
theorem claim_C4 (s : Store) (p : String) (kv : String × VerificationRecord) :
    kv ∈ contactQuery s p ↔
      kv ∈ s.telegramVerifications ∧
        ∃ q r, kv.2.phone = some q ∧ q.data = p.data ++ r
          ∧ lexLe r [highSentinel] = true := by
  rw [contactQuery, List.mem_filter]
  constructor
  · rintro ⟨hmem, hf⟩
    refine ⟨hmem, ?_⟩
    cases hq : kv.2.phone with
    | none =>
      simp only [phoneInRange, hq] at hf
      exact absurd hf (by decide)
    | some q =>
      simp only [phoneInRange, hq, Bool.and_eq_true] at hf
      obtain ⟨r, hqr, hr⟩ := lexLe_range_split p.data q.data highSentinel hf.1 hf.2
      exact ⟨q, r, rfl, hqr, hr⟩
  · rintro ⟨hmem, q, r, hq, hqr, hr⟩
    refine ⟨hmem, ?_⟩
    simp only [phoneInRange, hq, Bool.and_eq_true]
    constructor
    · rw [hqr]
      exact lexLe_append_self _ _
    · rw [hqr, lexLe_append_left]
      exact hr

/-- Any reply event in a trace shows up among the trace's replies. -/
theorem mem_replies {r : Reply} {tr : List Event} (h : Event.reply r ∈ tr) :
    r ∈ replies tr := by
  induction tr with
  | nil => cases h
  | cons e rest ih =>
    rw [List.mem_cons] at h
    rcases h with rfl | h
    · exact List.mem_cons_self _ _
    · cases e with
      | reply r2 => exact List.mem_cons_of_mem _ (ih h)
      | setVerified a b c2 => exact ih h
      | deleteVerification k => exact ih h

/-- C6 fails as stated: Python's `if user_id and user_id != ...` treats a
*present but zero* embedded id as absent (int truthiness), so a contact
carrying embedded id 0 with a requester whose id is 5 is **not**
rejected — here it falls through to the query and gets the no-pending
reply instead of "share your own contact". -/
theorem claim_C6_counterexample :
    (⟨some 0, "15551234567"⟩ : Contact).user_id = some 0
    ∧ ¬ (0 : Int) = 5
    ∧ handle_contact emptyStore ⟨none, 5⟩ ⟨some 0, "15551234567"⟩
        = [Event.reply Reply.noPending] := by
  refine ⟨rfl, by decide, by decide⟩

/-- C6 amended: for every contact payload whose embedded user id is
present, **nonzero**, and differs from the requester's chat identity,
verify-by-contact replies "share your own contact" and terminates with
no store access (the result holds for every store, which it leaves
unchanged); and when the embedded id is absent no such check occurs —
the share-own-contact reply is never sent. -/
theorem claim_C6 (s : Store) (req : Requester) (c : Contact) (uid : Int)
    (h1 : c.user_id = some uid) (h2 : ¬ uid = 0) (h3 : ¬ uid = req.id) :
    (handle_contact s req c = [Event.reply Reply.shareOwnContact]
      ∧ runEvents s (handle_contact s req c) = s)
    ∧ ∀ (s2 : Store) (req2 : Requester) (c2 : Contact), c2.user_id = none →
        Event.reply Reply.shareOwnContact ∉ handle_contact s2 req2 c2 := by
  constructor
  · have hm : selfContactMismatch c req = true := by
      simp only [selfContactMismatch, h1]
      simp [h2, h3]
    have hh : handle_contact s req c = [Event.reply Reply.shareOwnContact] := by
      simp only [handle_contact, hm, if_true]
    exact ⟨hh, by rw [hh]; rfl⟩
  · intro s2 req2 c2 hnone hmem
    have hm : selfContactMismatch c2 req2 = false := by
      simp only [selfContactMismatch, hnone]
    simp only [handle_contact, hm, Bool.false_eq_true, if_false] at hmem
    by_cases hp : c2.phone_number = ""
    · rw [if_pos hp] at hmem
      simp at hmem
    · rw [if_neg hp] at hmem
      rw [List.mem_append] at hmem
      rcases hmem with hmem | hmem
      · have hrep := mem_replies hmem
        rw [replies_contactLoop] at hrep
        cases hrep
      · simp only [List.mem_singleton] at hmem
        injection hmem with h4
        by_cases hf : (contactLoop req2 (contactQuery s2 (stripPlus c2.phone_number))).2 = true
        · rw [if_pos hf] at h4
          cases h4
        · rw [if_neg hf] at h4
          cases h4

/-- Witness for C6 (amended): embedded id 99 against requester id 5. -/
theorem claim_C6_witness :
    (handle_contact emptyStore ⟨none, 5⟩ ⟨some 99, "15551234567"⟩
        = [Event.reply Reply.shareOwnContact]
      ∧ runEvents emptyStore
          (handle_contact emptyStore ⟨none, 5⟩ ⟨some 99, "15551234567"⟩) = emptyStore)
    ∧ ∀ (s2 : Store) (req2 : Requester) (c2 : Contact), c2.user_id = none →
        Event.reply Reply.shareOwnContact ∉ handle_contact s2 req2 c2 :=
  claim_C6 emptyStore ⟨none, 5⟩ ⟨some 99, "15551234567"⟩ 99 rfl (by decide) (by decide)

/-- The /status scan of lines 189-193 is an "any" scan: it stops at the
first record with a truthy `phoneVerified`, continuing past unverified
ones. -/
theorem statusLoop_any (l : List (String × UserRecord)) :
    statusLoop l = l.any (fun kv => kv.2.phoneVerified) := by
  induction l with
  | nil => rfl
  | cons kv rest ih =>
    obtain ⟨k, u⟩ := kv
    cases hp : u.phoneVerified <;> simp [statusLoop, hp, ih]

/-- C7 fails as stated: /status does not inspect only the first matching
record.  In `egStore7` the requester's id 5 matches two user records; the
first in iteration order is unverified, yet the reply is "already
verified" because the loop continues to the second, verified one. -/
theorem claim_C7_counterexample :
    status_command egStore7 ⟨none, 5⟩ = [Event.reply Reply.alreadyVerified]
    ∧ (statusQuery egStore7 5).head? = some ("a", ⟨false, none, some 5⟩) := by
  refine ⟨by decide, by decide⟩

/-- C7 amended: for every /status request, the reply is "already
verified" exactly when *some* record matching the requester's transport
identity has `phoneVerified = true` (the loop scans in iteration order
until it finds one), and "not yet verified" otherwise — in particular
with zero matching records the reply is "not yet verified"; the store is
untouched. -/
theorem claim_C7 (s : Store) (req : Requester) :
    status_command s req =
      [Event.reply (if (statusQuery s req.id).any (fun kv => kv.2.phoneVerified)
        then Reply.alreadyVerified else Reply.notYetVerified)]
    ∧ runEvents s (status_command s req) = s := by
  constructor
  · simp only [status_command, statusLoop_any]
  · rfl

/-- C8 fails as stated: not every handler converts an exception into a
user-visible failure reply.  `help_command`'s except block (lines
177-178) only logs — on an exception it sends nothing at all. -/
theorem claim_C8_counterexample :
    runWithBoundary Handler.help (Except.error (PyExn.raised "store failure")) = []
    ∧ handlerExceptReply Handler.help = none :=
  ⟨rfl, rfl⟩

/-- C8 amended: every handler catches exceptions at its boundary and
never re-raises (the boundary is total); the start, verify-by-code,
verify-by-contact and status handlers convert the exception into a
single generic failure reply, while /help catches and logs but sends no
reply. -/
theorem claim_C8 (h : Handler) (e : PyExn) (hne : ¬ h = Handler.help) :
    (∃ r, runWithBoundary h (Except.error e) = [Event.reply r])
    ∧ runWithBoundary Handler.help (Except.error e) = [] := by
  refine ⟨?_, rfl⟩
  cases h with
  | start => exact ⟨Reply.errorGeneric, rfl⟩
  | verifyCode => exact ⟨Reply.errorVerification, rfl⟩
  | contact => exact ⟨Reply.errorContact, rfl⟩
  | help => exact absurd rfl hne
  | status => exact ⟨Reply.errorStatus, rfl⟩

/-- Witness for C8 (amended): a raised exception in the start handler. -/
theorem claim_C8_witness :
    (∃ r, runWithBoundary Handler.start (Except.error (PyExn.raised "boom"))
        = [Event.reply r])
    ∧ runWithBoundary Handler.help (Except.error (PyExn.raised "boom")) = [] :=
  claim_C8 Handler.start (PyExn.raised "boom") (by decide)

/-- C9 fails as stated: `lstrip('+')` removes *every* leading `+`, not
just one.  On `"++15551234567"` the code produces `"15551234567"`,
whereas removing one leading `+` would give `"+15551234567"`. -/
theorem claim_C9_counterexample :
    stripPlus "++15551234567" = "15551234567"
    ∧ ¬ stripPlus "++15551234567" = "+15551234567" := by
  refine ⟨by decide, by decide⟩

/-- Leading-'+' decomposition of `dropWhile`. -/
theorem dropWhile_plus (l : List Char) :
    ∃ k, l = List.replicate k '+' ++ l.dropWhile (fun c => c == '+')
      ∧ ∀ c, (l.dropWhile (fun c => c == '+')).head? = some c → ¬ c = '+' := by
  induction l with
  | nil =>
    refine ⟨0, rfl, ?_⟩
    intro c hc
    cases hc
  | cons a rest ih =>
    by_cases ha : a = '+'
    · subst ha
      obtain ⟨k, hk, hh⟩ := ih
      refine ⟨k + 1, ?_, hh⟩
      have hd : List.dropWhile (fun c => c == '+') ('+' :: rest)
          = List.dropWhile (fun c => c == '+') rest := by
        simp [List.dropWhile]
      rw [hd, List.replicate_succ, List.cons_append, ← hk]
    · have hbeq : (a == '+') = false := beq_eq_false_iff_ne.mpr ha
      have hd : List.dropWhile (fun c => c == '+') (a :: rest) = a :: rest := by
        simp [List.dropWhile, hbeq]
      refine ⟨0, by rw [hd]; rfl, ?_⟩
      rw [hd]
      intro c hc
      cases hc
      exact ha

/-- C9 amended: normalization removes *all* leading `+` characters: for
every phone string p, p decomposes as a block of leading `+` signs
followed by the normalized value, and the normalized value does not
start with `+` (so p without any leading `+` is returned unchanged). -/
theorem claim_C9 (p : String) :
    ∃ k, p.data = List.replicate k '+' ++ (stripPlus p).data
      ∧ ∀ c, (stripPlus p).data.head? = some c → ¬ c = '+' :=
  dropWhile_plus p.data

/-- A record passing the existence check is in particular truthy. -/
theorem truthy_of_userExistsFor {s : Store} {o : Option String}
    (h : userExistsFor s o = true) : truthyUserId o = true := by
  cases o with
  | none => simp [userExistsFor] at h
  | some uid =>
    simp only [userExistsFor, Bool.and_eq_true] at h
    simp only [truthyUserId]
    exact h.1

/-- C5: for every verify-by-contact invocation (passing the self-contact
and phone-presence guards) whose query matches at least one record, each
with a present (truthy) `userId` referencing an existing user record,
the handler updates all referenced user records with the three
verification fields, deletes all matching verification records, and
sends exactly one reply, the success reply.  In particular a contact
matching two pending records for different users verifies both users
(see the witness). -/
theorem claim_C5 (s : Store) (req : Requester) (c : Contact)
    (hself : selfContactMismatch c req = false)
    (hphone : ¬ c.phone_number = "")
    (hne : ¬ contactQuery s (stripPlus c.phone_number) = [])
    (hall : ∀ kv ∈ contactQuery s (stripPlus c.phone_number),
        userExistsFor s kv.2.userId = true) :
    replies (handle_contact s req c) = [Reply.success]
    ∧ (∀ kv ∈ contactQuery s (stripPlus c.phone_number), ∀ uid,
        kv.2.userId = some uid →
          getDoc uid (runEvents s (handle_contact s req c)).users
            = some (verifiedUser req.username req.id))
    ∧ (∀ kv ∈ contactQuery s (stripPlus c.phone_number),
        getDoc kv.1 (runEvents s (handle_contact s req c)).telegramVerifications
          = none) := by
  obtain ⟨kv0, hkv0⟩ := List.exists_mem_of_ne_nil _ hne
  have hfound : (contactLoop req (contactQuery s (stripPlus c.phone_number))).2 = true :=
    (contactLoop_found req _).mpr ⟨kv0, hkv0, truthy_of_userExistsFor (hall kv0 hkv0)⟩
  have heq : handle_contact s req c
      = (contactLoop req (contactQuery s (stripPlus c.phone_number))).1
        ++ [Event.reply Reply.success] := by
    simp only [handle_contact, hself, Bool.false_eq_true, if_false, if_neg hphone,
      hfound, if_true]
  have hrun : runEvents s (handle_contact s req c)
      = runEvents s (contactLoop req (contactQuery s (stripPlus c.phone_number))).1 := by
    rw [heq, runEvents_append]
    rfl
  refine ⟨?_, ?_, ?_⟩
  · rw [heq, replies_append, replies_contactLoop]
    rfl
  · intro kv hkv uid huid
    rw [hrun]
    exact (contactLoop_correct req _ s hall kv hkv).1 uid huid
  · intro kv hkv
    rw [hrun]
    exact (contactLoop_correct req _ s hall kv hkv).2

/-- Witness for C5: the spec's scenario — contact `+15551234567` matches
two pending records for users `u1` and `u2`; both users end up verified,
both records deleted, one success reply. -/
theorem claim_C5_witness :
    replies (handle_contact egStore5 egReq ⟨none, "+15551234567"⟩) = [Reply.success]
    ∧ (∀ kv ∈ contactQuery egStore5 (stripPlus "+15551234567"), ∀ uid,
        kv.2.userId = some uid →
          getDoc uid (runEvents egStore5
            (handle_contact egStore5 egReq ⟨none, "+15551234567"⟩)).users
            = some (verifiedUser (some "alice") 42))
    ∧ (∀ kv ∈ contactQuery egStore5 (stripPlus "+15551234567"),
        getDoc kv.1 (runEvents egStore5
          (handle_contact egStore5 egReq ⟨none, "+15551234567"⟩)).telegramVerifications
          = none) :=
  claim_C5 egStore5 egReq ⟨none, "+15551234567"⟩
    (by decide) (by decide) (by decide) (by decide)

/-- C10 (implicit): in verify-by-contact, every matching verification
record whose `userId` field is absent is skipped entirely — no deletion
is emitted for its id, it remains in the store afterwards (hence stays
redeemable), and such records do not count toward the success reply: if
every matching record lacks `userId`, the handler replies "no pending
verification found".  The no-duplicate-ids hypothesis reflects that
Firestore document ids are unique within a collection. -/
theorem claim_C10 (s : Store) (req : Requester) (c : Contact)
    (hself : selfContactMismatch c req = false)
    (hphone : ¬ c.phone_number = "")
    (hnodup : (s.telegramVerifications.map Prod.fst).Nodup)
    (kv : String × VerificationRecord)
    (hkv : kv ∈ contactQuery s (stripPlus c.phone_number))
    (hnone : kv.2.userId = none) :
    Event.deleteVerification kv.1 ∉ handle_contact s req c
    ∧ kv ∈ (runEvents s (handle_contact s req c)).telegramVerifications
    ∧ ((∀ kv2 ∈ contactQuery s (stripPlus c.phone_number), kv2.2.userId = none) →
        handle_contact s req c = [Event.reply Reply.noPending]) := by
  have hmem : kv ∈ s.telegramVerifications := List.mem_of_mem_filter hkv
  have heq : handle_contact s req c
      = (contactLoop req (contactQuery s (stripPlus c.phone_number))).1
        ++ [Event.reply
            (if (contactLoop req (contactQuery s (stripPlus c.phone_number))).2
              then Reply.success else Reply.noPending)] := by
    simp only [handle_contact, hself, Bool.false_eq_true, if_false, if_neg hphone]
  have hdel : ∀ code, Event.deleteVerification code
      ∈ (contactLoop req (contactQuery s (stripPlus c.phone_number))).1 →
        ¬ code = kv.1 := by
    intro code hc hck
    obtain ⟨kv2, hkv2, hkey, htruthy⟩ := contactLoop_del_mem req _ code hc
    have : kv2 = kv := nodup_key_eq hnodup
      (List.mem_of_mem_filter hkv2) hmem (hkey.trans hck)
    rw [this, hnone] at htruthy
    exact absurd htruthy (by decide)
  refine ⟨?_, ?_, ?_⟩
  · rw [heq]
    intro hin
    rw [List.mem_append] at hin
    rcases hin with hin | hin
    · exact hdel kv.1 hin rfl
    · simp at hin
  · rw [heq, runEvents_append]
    show kv ∈ (runEvents s (contactLoop req
      (contactQuery s (stripPlus c.phone_number))).1).telegramVerifications
    exact runEvents_verif_mem _ s kv hmem hdel
  · intro hall2
    have hloop : contactLoop req (contactQuery s (stripPlus c.phone_number))
        = ([], false) := by
      apply contactLoop_all_falsy
      intro kv2 h2
      rw [hall2 kv2 h2]
      rfl
    rw [heq, hloop]
    rfl

/-- Witness for C10: the single matching record of `egStore10` has no
`userId`; it survives the handler, no deletion is emitted, and the reply
is "no pending verification found". -/
theorem claim_C10_witness :
    Event.deleteVerification "c1"
      ∉ handle_contact egStore10 ⟨none, 7⟩ ⟨none, "+15551234567"⟩
    ∧ ("c1", (⟨none, some "15551234567"⟩ : VerificationRecord))
        ∈ (runEvents egStore10
          (handle_contact egStore10 ⟨none, 7⟩ ⟨none, "+15551234567"⟩)).telegramVerifications
    ∧ ((∀ kv2 ∈ contactQuery egStore10 (stripPlus "+15551234567"),
          kv2.2.userId = none) →
        handle_contact egStore10 ⟨none, 7⟩ ⟨none, "+15551234567"⟩
          = [Event.reply Reply.noPending]) :=
  claim_C10 egStore10 ⟨none, 7⟩ ⟨none, "+15551234567"⟩
    (by decide) (by decide) (by decide)
    ("c1", ⟨none, some "15551234567"⟩) (by decide) rfl

end Bot
